import Mathlib

/-!
A formal model of the policy-gated remediation executor
(routes/remediation: the `POST /execute` and `GET /history` handlers and
the `ALLOWED_ACTIONS` registry) as a shallow embedding.

Modelling conventions:
* JavaScript parameter objects become association lists of string keys to
  `Value`s; an absent key is `none` under lookup (JS `undefined`).
* JS numbers are modelled as `Int` (every value the claims exercise is an
  integer; no claim depends on fractional values).
* ISO-8601 timestamp strings compare chronologically, so timestamps are
  modelled as `Nat` with the same ordering.
* `Math.random()` draws, the uuid, the wall clock and the measured elapsed
  time are inputs supplied by an `Env` record, making the handlers pure
  functions of the environment, the current audit log and the request.
* The SQLite statement `SELECT ... WHERE status = s ORDER BY timestamp DESC
  LIMIT n` is modelled as filter, then a sort by timestamp descending, then
  `take`.
* The executor result is instrumented with two booleans recording whether
  the action's validator and effect producer (`simulate`) were invoked;
  they are set exactly at the points where the source calls them.
-/

/-- JSON-like values as they appear in request params and in results. -/
inductive Value where
  | vStr (s : String)
  | vNum (n : Int)
  | vBool (b : Bool)
  | vNull
  deriving Repr, DecidableEq

/-- JS string conversion used by template literals. -/
def Value.jsToString : Value → String
  | .vStr s => s
  | .vNum n => toString n
  | .vBool b => if b then "true" else "false"
  | .vNull => "null"

/-- JS truthiness of a value. -/
def Value.truthy : Value → Bool
  | .vStr s => s ≠ ""
  | .vNum n => n ≠ 0
  | .vBool b => b
  | .vNull => false

/-- Parameter objects: association lists from keys to values. -/
abbrev Params := List (String × Value)

/-- Property lookup, `params[k]`; `none` models JS `undefined`. -/
def getParam (p : Params) (k : String) : Option Value :=
  (p.find? (fun e => e.1 == k)).map (·.2)

/-- JS template-literal rendering of a possibly absent property. -/
def jsStr (o : Option Value) : String :=
  match o with
  | some v => v.jsToString
  | none => "undefined"

/-- The JS expression `o || dflt`. -/
def jsOr (o : Option Value) (dflt : Value) : Value :=
  match o with
  | some v => if v.truthy then v else dflt
  | none => dflt

/-- The missing-parameter test of the executor:
`params[k] === undefined || params[k] === null || params[k] === ''`. -/
def isMissing (o : Option Value) : Bool :=
  match o with
  | none => true
  | some .vNull => true
  | some (.vStr s) => s == ""
  | some _ => false

/-- The `result` column of an audit row: either the JSON object
`\x7berror: ...\x7d` written for rejections, or a success payload. -/
inductive AuditResult where
  | err (msg : String)
  | payload (fields : List (String × Value))
  deriving Repr, DecidableEq

/-- One row of the `actions` audit table. -/
structure AuditRecord where
  id : String
  timestamp : Nat
  action : String
  params : Params
  result : AuditResult
  status : String
  duration_ms : Nat
  deriving Repr, DecidableEq

/-- Environmental inputs of one handler invocation: the wall clock, the
generated uuid, the measured duration, and the `Math.random()` draws of the
`simulate` functions (already floored to naturals; `Math.floor(Math.random()*k)`
is modelled as `rand % k`). -/
structure Env where
  now : Nat
  newId : String
  elapsed : Nat
  rand1 : Nat
  rand2 : Nat
  deriving Repr, DecidableEq

/-- One entry of the allowed-actions registry. -/
structure ActionDef where
  description : String
  required_params : List String
  validate : Params → List String
  simulate : Env → Params → List (String × Value)

/-- Character class of the regex `[a-z0-9-]`. -/
def isServiceChar (c : Char) : Bool :=
  c.isLower || c.isDigit || c == '-'

/-- The regex test `/^[a-z0-9-]+$/.test(s)`. -/
def isServiceName (s : String) : Bool :=
  !s.isEmpty && s.data.all isServiceChar

/-- Character class of the regex `[a-z0-9_-]`. -/
def isChannelChar (c : Char) : Bool :=
  c.isLower || c.isDigit || c == '_' || c == '-'

/-- The regex test `/^#?[a-z0-9_-]+$/.test(s)`. -/
def isChannelName (s : String) : Bool :=
  match s.data with
  | [] => false
  | c :: rest =>
    if c == '#' then !rest.isEmpty && rest.all isChannelChar
    else isChannelChar c && rest.all isChannelChar

/-- Validator error message for a malformed service name. -/
def serviceErr : String := "service must be a lowercase alphanumeric string with dashes"

/-- Validator error message for an out-of-range replica count. -/
def replicasErr : String := "replicas must be a number between 1 and 20"

/-- Validator error message for a malformed Slack channel. -/
def channelErr : String := "channel must be a valid Slack channel name"

/-- Validator error message for an out-of-bounds message. -/
def messageErr : String := "message must be a string between 1 and 2000 characters"

/-- Registry entry for `scale_pods`. -/
def scalePodsDef : ActionDef where
  description := "Scale a Kubernetes deployment to the specified replica count"
  required_params := ["service", "replicas"]
  validate := fun p =>
    (match getParam p "service" with
     | some (.vStr s) => if isServiceName s then [] else [serviceErr]
     | _ => [serviceErr]) ++
    (match getParam p "replicas" with
     | some (.vNum n) => if n < 1 || 20 < n then [replicasErr] else []
     | _ => [replicasErr])
  simulate := fun env p =>
    [("message", .vStr ("Scaled " ++ jsStr (getParam p "service") ++ " to " ++
        jsStr (getParam p "replicas") ++ " replicas")),
     ("previous_replicas", .vNum (Int.ofNat (env.rand1 % 3 + 1))),
     ("new_replicas", (getParam p "replicas").getD .vNull),
     ("estimated_ready_seconds", .vNum (Int.ofNat (env.rand2 % 30 + 10)))]

/-- Registry entry for `restart_service`. -/
def restartServiceDef : ActionDef where
  description := "Perform a rolling restart of a service (zero-downtime)"
  required_params := ["service"]
  validate := fun p =>
    match getParam p "service" with
    | some (.vStr s) => if isServiceName s then [] else [serviceErr]
    | _ => [serviceErr]
  simulate := fun env p =>
    [("message", .vStr ("Rolling restart initiated for " ++ jsStr (getParam p "service"))),
     ("strategy", jsOr (getParam p "strategy") (.vStr "rolling")),
     ("pods_restarting", .vNum (Int.ofNat (env.rand1 % 3 + 1))),
     ("estimated_completion_seconds", .vNum (Int.ofNat (env.rand2 % 60 + 30)))]

/-- Registry entry for `notify_slack`. -/
def notifySlackDef : ActionDef where
  description := "Send a notification to the configured Slack channel"
  required_params := ["channel", "message"]
  validate := fun p =>
    (match getParam p "channel" with
     | some (.vStr s) => if isChannelName s then [] else [channelErr]
     | _ => [channelErr]) ++
    (match getParam p "message" with
     | some (.vStr s) => if s.length < 1 || 2000 < s.length then [messageErr] else []
     | _ => [messageErr])
  simulate := fun env p =>
    [("message", .vStr ("Notification sent to " ++ jsStr (getParam p "channel"))),
     ("slack_message", (getParam p "message").getD .vNull),
     ("severity", jsOr (getParam p "severity") (.vStr "info")),
     ("delivered", .vBool true),
     ("timestamp", .vNum (Int.ofNat env.now))]

/-- The allowed-actions registry, in declaration order. -/
def ALLOWED_ACTIONS : List (String × ActionDef) :=
  [("scale_pods", scalePodsDef),
   ("restart_service", restartServiceDef),
   ("notify_slack", notifySlackDef)]

/-- Registry lookup, `ALLOWED_ACTIONS[action]` on own keys. -/
def lookupAction (name : String) : Option ActionDef :=
  (ALLOWED_ACTIONS.find? (fun e => e.1 == name)).map (·.2)

/-- A `POST /execute` request body. A missing `action` field and an empty
string are both falsy under the guard `if (!action)`, so an absent action is
modelled as `""`; `params := none` models an absent or non-object `params`
field (rejected by `typeof params !== 'object'`). -/
structure Request where
  action : String
  params : Option Params
  deriving Repr, DecidableEq

/-- Caller-facing outcome of `POST /execute`. -/
inductive Response where
  | badRequest (error : String)
  | forbidden (error : String) (allowed_actions : List String) (execution_id : String)
  | missingParam (error : String)
  | invalid (error : String) (validation_errors : List String)
  | ok (execution_id : String) (action : String) (params : Params)
      (result : List (String × Value)) (duration_ms : Nat)
  deriving Repr, DecidableEq

/-- True on the outcomes whose handler branch inserts an audit row. -/
def Response.isAudited : Response → Bool
  | .forbidden _ _ _ => true
  | .ok _ _ _ _ _ => true
  | _ => false

/-- Result of one `POST /execute` invocation: the response, the audit log
after the call, and instrumentation recording whether the validator and the
effect producer were invoked. -/
structure ExecResult where
  response : Response
  log : List AuditRecord
  validateInvoked : Bool
  effectInvoked : Bool

/-- The audit row inserted by the unknown-action branch of the handler. -/
def rejectedRecord (env : Env) (req : Request) (params : Params) : AuditRecord :=
  ⟨env.newId, env.now, req.action, params,
   .err ("Action \"" ++ req.action ++ "\" is not allowed"), "rejected", env.elapsed⟩

/-- The audit row inserted by the success branch of the handler. -/
def successRecord (env : Env) (req : Request) (params : Params)
    (adef : ActionDef) : AuditRecord :=
  ⟨env.newId, env.now, req.action, params,
   .payload (adef.simulate env params), "success", env.elapsed⟩

/-- The `POST /execute` handler. Mirrors the source order: field guards,
allowlist check (unknown action is audited `rejected` and answered 403),
required-parameter scan in declared order, validator, then `simulate` and a
`success` audit row. -/
def execute (env : Env) (log : List AuditRecord) (req : Request) : ExecResult :=
  if req.action = "" then
    ⟨.badRequest "Missing required field: action", log, false, false⟩
  else
    match req.params with
    | none =>
      ⟨.badRequest "Missing or invalid field: params (must be an object)", log, false, false⟩
    | some params =>
      match lookupAction req.action with
      | none =>
        ⟨.forbidden ("Action \"" ++ req.action ++ "\" is not permitted by policy")
            (ALLOWED_ACTIONS.map (·.1)) env.newId,
         log ++ [rejectedRecord env req params], false, false⟩
      | some adef =>
        match adef.required_params.find? (fun k => isMissing (getParam params k)) with
        | some missing =>
          ⟨.missingParam ("Missing required parameter: " ++ missing), log, false, false⟩
        | none =>
          if adef.validate params ≠ [] then
            ⟨.invalid "Parameter validation failed" (adef.validate params), log, true, false⟩
          else
            ⟨.ok env.newId req.action params (adef.simulate env params) env.elapsed,
             log ++ [successRecord env req params adef], true, true⟩

/-- The status values accepted by the history filter. -/
def VALID_STATUSES : List String := ["success", "rejected", "error"]

/-- The effective history limit:
`Math.min(Math.max(parseInt(req.query.limit, 10) || 50, 1), 200)`.
`none` models an absent or unparsable (`NaN`) limit; both it and a parsed
`0` are falsy, so `|| 50` replaces them with the default. -/
def effectiveLimit (limitQ : Option Int) : Nat :=
  (min (max (match limitQ with
             | none => (50 : Int)
             | some n => if n = 0 then 50 else n) 1) 200).toNat

/-- Descending sort by timestamp, the model of `ORDER BY timestamp DESC`
(on ISO-8601 strings, whose order is chronological). -/
def sortByTimestampDesc (l : List AuditRecord) : List AuditRecord :=
  l.insertionSort (fun a b => b.timestamp ≤ a.timestamp)

/-- Caller-facing outcome of `GET /history`. -/
structure HistoryResult where
  ok : Bool
  error : Option String
  data : List AuditRecord
  deriving Repr, DecidableEq

/-- The `GET /history` handler. `if (status)` is a JS truthiness test, so an
empty-string status query behaves as if absent; otherwise the status must be
one of the three known values or the call fails with a 400. -/
def getHistory (log : List AuditRecord) (statusQ : Option String)
    (limitQ : Option Int) : HistoryResult :=
  let limit := effectiveLimit limitQ
  match statusQ with
  | some s =>
    if s = "" then
      { ok := true, error := none, data := (sortByTimestampDesc log).take limit }
    else if s ∈ VALID_STATUSES then
      { ok := true, error := none
        data := (sortByTimestampDesc (log.filter (fun r => r.status == s))).take limit }
    else
      { ok := false, error := some "Invalid status. Must be: success, rejected, error"
        data := [] }
  | none =>
    { ok := true, error := none, data := (sortByTimestampDesc log).take limit }

/-- The limit clamp as the specification words it: a range of 1 to 500,
stated for comparison with the code's `effectiveLimit`. Values above 500 are
reduced to 500 and values below 1 are raised to 1. -/
def specLimitClamp (limitQ : Option Int) : Nat :=
  (min (max (match limitQ with
             | none => (50 : Int)
             | some n => n) 1) 500).toNat

/-! ## Helper lemmas -/

/-- A registry lookup misses exactly when the name is not one of the keys. -/
theorem lookupAction_eq_none_iff (a : String) :
    lookupAction a = none ↔ a ∉ ALLOWED_ACTIONS.map (·.1) := by
  constructor
  · intro h hmem
    simp only [ALLOWED_ACTIONS, List.map, List.mem_cons, List.not_mem_nil, or_false] at hmem
    rcases hmem with h1 | h1 | h1 <;> subst h1 <;>
      simp [lookupAction, ALLOWED_ACTIONS, List.find?] at h
  · intro h
    simp only [ALLOWED_ACTIONS, List.map, List.mem_cons, List.not_mem_nil, or_false,
      not_or] at h
    obtain ⟨h1, h2, h3⟩ := h
    have e1 : ("scale_pods" == a) = false := beq_eq_false_iff_ne.mpr (Ne.symm h1)
    have e2 : ("restart_service" == a) = false := beq_eq_false_iff_ne.mpr (Ne.symm h2)
    have e3 : ("notify_slack" == a) = false := beq_eq_false_iff_ne.mpr (Ne.symm h3)
    simp [lookupAction, ALLOWED_ACTIONS, List.find?, e1, e2, e3]

/-- A found element satisfies the predicate and is the first such element. -/
theorem find?_eq_some_split {α : Type} {p : α → Bool} {l : List α} {a : α}
    (h : l.find? p = some a) :
    p a = true ∧ ∃ s t, l = s ++ a :: t ∧ ∀ x ∈ s, p x = false := by
  induction l with
  | nil => simp [List.find?] at h
  | cons b l ih =>
    by_cases hb : p b = true
    · rw [List.find?_cons_of_pos _ hb] at h
      cases h
      exact ⟨hb, [], l, rfl, by simp⟩
    · rw [List.find?_cons_of_neg _ hb] at h
      obtain ⟨hp, s, t, hl, hs⟩ := ih h
      subst hl
      refine ⟨hp, b :: s, t, rfl, ?_⟩
      intro x hx
      rcases List.mem_cons.mp hx with hx | hx
      · subst hx
        simpa using hb
      · exact hs x hx

/-- Inserting a record older than everything in a descending list puts it last. -/
theorem orderedInsert_eq_append (a : AuditRecord) (l : List AuditRecord)
    (h : ∀ x ∈ l, ¬ x.timestamp ≤ a.timestamp) :
    l.orderedInsert (fun u v => v.timestamp ≤ u.timestamp) a = l ++ [a] := by
  induction l with
  | nil => rfl
  | cons b t ih =>
    rw [List.orderedInsert, if_neg (h b (by simp))]
    rw [ih (fun x hx => h x (by simp [hx]))]
    rfl

/-- Sorting a chronologically increasing log descending reverses it. -/
theorem sortDesc_of_increasing (l : List AuditRecord)
    (h : l.Pairwise (fun a b => a.timestamp < b.timestamp)) :
    sortByTimestampDesc l = l.reverse := by
  induction l with
  | nil => rfl
  | cons a t ih =>
    rw [List.pairwise_cons] at h
    obtain ⟨ha, ht⟩ := h
    rw [sortByTimestampDesc, List.insertionSort,
      show List.insertionSort _ t = sortByTimestampDesc t from rfl, ih ht,
      orderedInsert_eq_append a t.reverse
        (fun x hx => Nat.not_le.mpr (ha x (List.mem_reverse.mp hx)))]
    simp

/-- Appending a strictly newest record and sorting descending puts it first. -/
theorem sortDesc_snoc_newest (l : List AuditRecord) (m : AuditRecord)
    (h : ∀ x ∈ l, x.timestamp < m.timestamp) :
    sortByTimestampDesc (l ++ [m]) = m :: sortByTimestampDesc l := by
  induction l with
  | nil => rfl
  | cons a t ih =>
    have hm : ¬ m.timestamp ≤ a.timestamp := Nat.not_le.mpr (h a (by simp))
    rw [List.cons_append, sortByTimestampDesc, List.insertionSort,
      show List.insertionSort _ (t ++ [m]) = sortByTimestampDesc (t ++ [m]) from rfl,
      ih (fun x hx => h x (by simp [hx])),
      List.orderedInsert, if_neg hm]
    rfl

/-- Registered action names are never the empty string. -/
theorem action_ne_empty_of_lookup {a : String} {adef : ActionDef}
    (h : lookupAction a = some adef) : a ≠ "" := by
  intro he
  subst he
  exact Option.noConfusion ((rfl : lookupAction "" = none).symm.trans h)

/-- The missing-parameter test holds exactly on absent, null, or empty-string
values. -/
theorem isMissing_eq_true_iff (o : Option Value) :
    isMissing o = true ↔ o = none ∨ o = some .vNull ∨ o = some (.vStr "") := by
  cases o with
  | none => simp [isMissing]
  | some v => cases v <;> simp [isMissing]

/-- Shape of the audit log after one call: unchanged, or exactly one appended
record stamped with the call time and a `rejected` or `success` status. -/
theorem execute_log_shape (env : Env) (log : List AuditRecord) (req : Request) :
    (execute env log req).log = log ∨
    ∃ entry, (execute env log req).log = log ++ [entry] ∧
      entry.timestamp = env.now ∧
      (entry.status = "rejected" ∨ entry.status = "success") := by
  by_cases hact : req.action = ""
  · left
    simp [execute, hact]
  · cases hp : req.params with
    | none => left; simp [execute, hact, hp]
    | some p =>
      cases hreg : lookupAction req.action with
      | none =>
        right
        exact ⟨rejectedRecord env req p, by simp [execute, hact, hp, hreg], rfl, Or.inl rfl⟩
      | some adef =>
        cases hfind : adef.required_params.find? (fun k => isMissing (getParam p k)) with
        | some k => left; simp [execute, hact, hp, hreg, hfind]
        | none =>
          by_cases hval : adef.validate p = []
          · right
            refine ⟨successRecord env req p adef, ?_, rfl, Or.inr rfl⟩
            simp [execute, hact, hp, hreg, hfind, hval]
          · left
            simp [execute, hact, hp, hreg, hfind, hval]

/-! ## Claims -/

/-- Fixed environment used by concrete witnesses and counterexamples. -/
def envW : Env := ⟨100, "id0", 7, 2, 5⟩

/-- C1 (counterexample): the request with the empty-string action name — a
name that is not a key of the registry — is answered by the early field
guard as a 400 bad request, not by the 403 policy rejection, and no
AuditRecord is appended, contradicting the claim as stated. -/
theorem c1_counterexample :
    "" ∉ ALLOWED_ACTIONS.map (·.1) ∧
    (execute envW [] ⟨"", some []⟩).response =
      .badRequest "Missing required field: action" ∧
    (execute envW [] ⟨"", some []⟩).log = [] :=
  ⟨by decide, rfl, rfl⟩

/-- C1 (amended): for every request with a non-empty action field and a
params object, if the action name is not a key of the registry then Execute
returns the 403 policy rejection, appends exactly one AuditRecord with
status `rejected` whose result explains the rejection, and invokes no
effect producer. -/
theorem c1_unknown_action_rejected (env : Env) (log : List AuditRecord)
    (req : Request) (p : Params) (hact : req.action ≠ "")
    (hp : req.params = some p) (hunk : req.action ∉ ALLOWED_ACTIONS.map (·.1)) :
    (execute env log req).response =
      .forbidden ("Action \"" ++ req.action ++ "\" is not permitted by policy")
        (ALLOWED_ACTIONS.map (·.1)) env.newId ∧
    (execute env log req).log = log ++ [rejectedRecord env req p] ∧
    (rejectedRecord env req p).status = "rejected" ∧
    (rejectedRecord env req p).result =
      .err ("Action \"" ++ req.action ++ "\" is not allowed") ∧
    (execute env log req).effectInvoked = false := by
  have hnone : lookupAction req.action = none := (lookupAction_eq_none_iff _).mpr hunk
  refine ⟨?_, ?_, rfl, rfl, ?_⟩ <;> simp [execute, hact, hp, hnone]

/-- C1 (witness): the amended theorem applied to a concrete unknown action. -/
theorem c1_unknown_action_rejected_witness :
    (execute envW [] ⟨"drop_database", some []⟩).response =
      .forbidden ("Action \"" ++ "drop_database" ++ "\" is not permitted by policy")
        (ALLOWED_ACTIONS.map (·.1)) envW.newId ∧
    (execute envW [] ⟨"drop_database", some []⟩).log =
      [] ++ [rejectedRecord envW ⟨"drop_database", some []⟩ []] ∧
    (rejectedRecord envW ⟨"drop_database", some []⟩ []).status = "rejected" ∧
    (rejectedRecord envW ⟨"drop_database", some []⟩ []).result =
      .err ("Action \"" ++ "drop_database" ++ "\" is not allowed") ∧
    (execute envW [] ⟨"drop_database", some []⟩).effectInvoked = false :=
  c1_unknown_action_rejected envW [] ⟨"drop_database", some []⟩ []
    (by decide) rfl (by decide)

/-- C2: for every request whose action is registered but whose parameters
are missing a required key or fail the action's validator, Execute returns
a caller-facing validation failure and leaves the audit log unchanged. -/
theorem c2_validation_failure_not_audited (env : Env) (log : List AuditRecord)
    (req : Request) (p : Params) (adef : ActionDef)
    (hp : req.params = some p) (hreg : lookupAction req.action = some adef)
    (hbad : (adef.required_params.find? (fun k => isMissing (getParam p k))).isSome = true
            ∨ adef.validate p ≠ []) :
    ((∃ e, (execute env log req).response = .missingParam e) ∨
     (∃ e v, (execute env log req).response = .invalid e v)) ∧
    (execute env log req).log = log := by
  have hact : req.action ≠ "" := action_ne_empty_of_lookup hreg
  cases hfind : adef.required_params.find? (fun k => isMissing (getParam p k)) with
  | some k =>
    refine ⟨Or.inl ⟨"Missing required parameter: " ++ k, ?_⟩, ?_⟩ <;>
      simp [execute, hact, hp, hreg, hfind]
  | none =>
    have hval : adef.validate p ≠ [] := by
      rcases hbad with hmiss | hval
      · rw [hfind] at hmiss
        simp at hmiss
      · exact hval
    refine ⟨Or.inr ⟨"Parameter validation failed", adef.validate p, ?_⟩, ?_⟩ <;>
      simp [execute, hact, hp, hreg, hfind, hval]

/-- C2 (witness): `scale_pods` with an empty params object is a validation
failure and appends nothing. -/
theorem c2_validation_failure_not_audited_witness :
    ((∃ e, (execute envW [] ⟨"scale_pods", some []⟩).response = .missingParam e) ∨
     (∃ e v, (execute envW [] ⟨"scale_pods", some []⟩).response = .invalid e v)) ∧
    (execute envW [] ⟨"scale_pods", some []⟩).log = [] :=
  c2_validation_failure_not_audited envW [] ⟨"scale_pods", some []⟩ [] scalePodsDef
    rfl rfl (Or.inl (by decide))

/-- C3 (counterexample): invoking Execute on the registered action
`scale_pods` with an empty params object appends no AuditRecord at all,
contradicting the claim that every invocation appends exactly one. -/
theorem c3_counterexample :
    (execute envW [] ⟨"scale_pods", some []⟩).log = [] ∧
    (execute envW [] ⟨"scale_pods", some []⟩).response =
      .missingParam "Missing required parameter: service" :=
  ⟨rfl, rfl⟩

/-- C3 (amended): every invocation of Execute appends at most one
AuditRecord; invocations rejected for an unknown action and successful
executions append exactly one, while malformed requests and
parameter-validation failures append none. -/
theorem c3_at_most_one_audit (env : Env) (log : List AuditRecord) (req : Request) :
    ∃ appended : List AuditRecord,
      (execute env log req).log = log ++ appended ∧
      appended.length = (if (execute env log req).response.isAudited then 1 else 0) := by
  by_cases hact : req.action = ""
  · exact ⟨[], by simp [execute, hact, Response.isAudited]⟩
  · cases hp : req.params with
    | none => exact ⟨[], by simp [execute, hact, hp, Response.isAudited]⟩
    | some p =>
      cases hreg : lookupAction req.action with
      | none =>
        exact ⟨[rejectedRecord env req p],
          by simp [execute, hact, hp, hreg], by simp [execute, hact, hp, hreg, Response.isAudited]⟩
      | some adef =>
        cases hfind : adef.required_params.find? (fun k => isMissing (getParam p k)) with
        | some k => exact ⟨[], by simp [execute, hact, hp, hreg, hfind, Response.isAudited]⟩
        | none =>
          by_cases hval : adef.validate p = []
          · exact ⟨[successRecord env req p adef],
              by simp [execute, hact, hp, hreg, hfind, hval],
              by simp [execute, hact, hp, hreg, hfind, hval, Response.isAudited]⟩
          · exact ⟨[], by simp [execute, hact, hp, hreg, hfind, hval, Response.isAudited]⟩


/-- The valid `scale_pods` parameters named by C4. -/
def p4 : Params := [("service", .vStr "payment-service"), ("replicas", .vNum 5)]

/-- The audit record appended by the C4 execution. -/
def successP4 (env : Env) : AuditRecord :=
  successRecord env ⟨"scale_pods", some p4⟩ p4 scalePodsDef

/-- C4: executing the registered action `scale_pods` with
`service = "payment-service"` and `replicas = 5` returns a success whose
result carries `new_replicas = 5`, and a subsequent GetHistory filtered to
`status = "success"` includes a record with `action = "scale_pods"`. The
hypothesis says the call happens after every record already in the log
(the wall clock moved forward). -/
theorem c4_scale_pods_success (env : Env) (log : List AuditRecord)
    (hts : ∀ r ∈ log, r.timestamp < env.now) :
    (∃ pay, (execute env log ⟨"scale_pods", some p4⟩).response =
        .ok env.newId "scale_pods" p4 pay env.elapsed ∧
      getParam pay "new_replicas" = some (.vNum 5)) ∧
    (∃ rcd, rcd ∈ (getHistory (execute env log ⟨"scale_pods", some p4⟩).log
        (some "success") none).data ∧
      rcd.action = "scale_pods" ∧ rcd.status = "success") := by
  have hresp : (execute env log ⟨"scale_pods", some p4⟩).response =
      .ok env.newId "scale_pods" p4 (scalePodsDef.simulate env p4) env.elapsed := rfl
  have hlog : (execute env log ⟨"scale_pods", some p4⟩).log =
      log ++ [successP4 env] := rfl
  constructor
  · exact ⟨scalePodsDef.simulate env p4, hresp, rfl⟩
  · refine ⟨successP4 env, ?_, rfl, rfl⟩
    rw [hlog]
    have hne : ("success" : String) ≠ "" := by decide
    have hmem : ("success" : String) ∈ VALID_STATUSES := by decide
    have hq : (log ++ [successP4 env]).filter (fun r => r.status == "success") =
        log.filter (fun r => r.status == "success") ++ [successP4 env] := by
      rw [List.filter_append]
      rfl
    have hsort := sortDesc_snoc_newest (log.filter (fun r => r.status == "success"))
      (successP4 env)
      (fun x hx => hts x (List.mem_of_mem_filter hx))
    have hdata : (getHistory (log ++ [successP4 env]) (some "success") none).data =
        successP4 env ::
          (sortByTimestampDesc (log.filter (fun r => r.status == "success"))).take 49 := by
      simp only [getHistory, if_neg hne, if_pos hmem]
      rw [hq, hsort]
      rfl
    rw [hdata]
    exact List.mem_cons_self _ _

/-- C4 (witness): the theorem applied to the empty audit log. -/
theorem c4_scale_pods_success_witness :
    (∃ pay, (execute envW [] ⟨"scale_pods", some p4⟩).response =
        .ok envW.newId "scale_pods" p4 pay envW.elapsed ∧
      getParam pay "new_replicas" = some (.vNum 5)) ∧
    (∃ rcd, rcd ∈ (getHistory (execute envW [] ⟨"scale_pods", some p4⟩).log
        (some "success") none).data ∧
      rcd.action = "scale_pods" ∧ rcd.status = "success") :=
  c4_scale_pods_success envW [] (by simp)

/-- C5 (counterexample): the history limit is clamped to 200, not to the 500
the claim states, and a requested limit of 0 becomes the default 50 rather
than being raised to 1: at requested limits 300, 500 and 0 the code's
effective limit disagrees with the clamp the claim describes. -/
theorem c5_counterexample :
    effectiveLimit (some 300) = 200 ∧ specLimitClamp (some 300) = 300 ∧
    effectiveLimit (some 500) = 200 ∧ specLimitClamp (some 500) = 500 ∧
    effectiveLimit (some 0) = 50 ∧ specLimitClamp (some 0) = 1 := by
  decide

/-- C5 (amended): the effective GetHistory limit always lies in 1..200: a
requested limit above 200 is reduced to 200, a negative one is raised to 1,
an absent or zero limit defaults to 50, and the returned sequence never
exceeds the effective limit in length. -/
theorem c5_limit_clamped (q : Option Int) (log : List AuditRecord)
    (statusQ : Option String) :
    1 ≤ effectiveLimit q ∧ effectiveLimit q ≤ 200 ∧
    (∀ n, q = some n → 200 < n → effectiveLimit q = 200) ∧
    (∀ n, q = some n → n < 0 → effectiveLimit q = 1) ∧
    ((q = none ∨ q = some 0) → effectiveLimit q = 50) ∧
    (getHistory log statusQ q).data.length ≤ effectiveLimit q := by
  have hlen : (getHistory log statusQ q).data.length ≤ effectiveLimit q := by
    cases statusQ with
    | none =>
      simp only [getHistory]
      simp [List.length_take]
    | some s =>
      by_cases hs : s = ""
      · simp only [getHistory, if_pos hs]
        simp [List.length_take]
      · by_cases hmem : s ∈ VALID_STATUSES
        · simp only [getHistory, if_neg hs, if_pos hmem]
          simp [List.length_take]
        · simp only [getHistory, if_neg hs, if_neg hmem]
          simp
  refine ⟨?_, ?_, ?_, ?_, ?_, hlen⟩
  · cases q with
    | none => decide
    | some n =>
      by_cases h0 : n = 0 <;> simp only [effectiveLimit, h0] <;> omega
  · cases q with
    | none => decide
    | some n =>
      by_cases h0 : n = 0 <;> simp only [effectiveLimit, h0] <;> omega
  · intro n hq h200
    subst hq
    have h0 : n ≠ 0 := by omega
    simp only [effectiveLimit, if_neg h0]
    omega
  · intro n hq hneg
    subst hq
    have h0 : n ≠ 0 := by omega
    simp only [effectiveLimit, if_neg h0]
    omega
  · intro h
    rcases h with h | h <;> subst h <;> decide

/-- C5 (witness): the amended theorem at a requested limit of 300 on the
empty log. -/
theorem c5_limit_clamped_witness :
    1 ≤ effectiveLimit (some 300) ∧ effectiveLimit (some 300) ≤ 200 ∧
    (∀ n : Int, some 300 = some n → 200 < n → effectiveLimit (some 300) = 200) ∧
    (∀ n : Int, some 300 = some n → n < 0 → effectiveLimit (some 300) = 1) ∧
    ((some (300 : Int) = none ∨ some (300 : Int) = some 0) → effectiveLimit (some 300) = 50) ∧
    (getHistory [] none (some 300)).data.length ≤ effectiveLimit (some 300) :=
  c5_limit_clamped (some 300) [] none

/-- The audit record used by the C6 counterexample. -/
def rejRecordW : AuditRecord :=
  ⟨"a1", 1, "drop_database", [], .err "denied", "rejected", 0⟩

/-- C6 (counterexample): the empty-string status query is given and is not
one of the three known values, yet GetHistory succeeds and returns the
stored record instead of failing with an invalid-filter error, because the
handler tests the filter with JS truthiness. -/
theorem c6_counterexample :
    "" ∉ VALID_STATUSES ∧
    (getHistory [rejRecordW] (some "") none).ok = true ∧
    (getHistory [rejRecordW] (some "") none).data = [rejRecordW] :=
  ⟨by decide, rfl, rfl⟩

/-- C6 (amended): for every non-empty status filter, if the status is not
one of the three known values the call fails as a bad request and returns no
records, and if it is one of the three the call succeeds and every returned
record has exactly that status; an empty-string filter is treated as absent. -/
theorem c6_status_filter (log : List AuditRecord) (s : String) (limitQ : Option Int)
    (hne : s ≠ "") :
    (s ∉ VALID_STATUSES →
      (getHistory log (some s) limitQ).ok = false ∧
      (getHistory log (some s) limitQ).error =
        some "Invalid status. Must be: success, rejected, error" ∧
      (getHistory log (some s) limitQ).data = []) ∧
    (s ∈ VALID_STATUSES →
      (getHistory log (some s) limitQ).ok = true ∧
      ∀ rcd ∈ (getHistory log (some s) limitQ).data, rcd.status = s) := by
  constructor
  · intro hnot
    refine ⟨?_, ?_, ?_⟩ <;> simp [getHistory, hne, hnot]
  · intro hmem
    refine ⟨by simp [getHistory, hne, hmem], ?_⟩
    intro rcd hr
    simp only [getHistory, if_neg hne, if_pos hmem] at hr
    have h1 : rcd ∈ sortByTimestampDesc (log.filter (fun r => r.status == s)) :=
      (List.take_sublist _ _).subset hr
    have hperm := List.perm_insertionSort
      (fun a b : AuditRecord => b.timestamp ≤ a.timestamp)
      (log.filter (fun r => r.status == s))
    have h2 : rcd ∈ log.filter (fun r => r.status == s) :=
      hperm.mem_iff.mp h1
    simpa using (List.mem_filter.mp h2).2

/-- C6 (witness): the amended theorem applied to the status "bogus" and to
the status "rejected" over a one-record log. -/
theorem c6_status_filter_witness :
    (("bogus" ∉ VALID_STATUSES →
      (getHistory [rejRecordW] (some "bogus") none).ok = false ∧
      (getHistory [rejRecordW] (some "bogus") none).error =
        some "Invalid status. Must be: success, rejected, error" ∧
      (getHistory [rejRecordW] (some "bogus") none).data = []) ∧
    ("bogus" ∈ VALID_STATUSES →
      (getHistory [rejRecordW] (some "bogus") none).ok = true ∧
      ∀ rcd ∈ (getHistory [rejRecordW] (some "bogus") none).data,
        rcd.status = "bogus")) :=
  c6_status_filter [rejRecordW] "bogus" none (by decide)

/-- C7: when a registered action's declared parameters are all present but
the validator rejects values, the validation failure carries the complete
sequence of validator error strings, not only the first. -/
theorem c7_all_validator_errors (env : Env) (log : List AuditRecord)
    (req : Request) (p : Params) (adef : ActionDef)
    (hp : req.params = some p) (hreg : lookupAction req.action = some adef)
    (hnomiss : adef.required_params.find? (fun k => isMissing (getParam p k)) = none)
    (herr : adef.validate p ≠ []) :
    (execute env log req).response =
      .invalid "Parameter validation failed" (adef.validate p) := by
  have hact : req.action ≠ "" := action_ne_empty_of_lookup hreg
  simp [execute, hact, hp, hreg, hnomiss, herr]

/-- Parameters for `scale_pods` that fail both validator checks. -/
def pBad : Params := [("service", .vStr "Payment Service"), ("replicas", .vNum 99)]

/-- C7 (witness): `scale_pods` with a malformed service and replicas out of
range reports both validator errors together. -/
theorem c7_all_validator_errors_witness :
    (execute envW [] ⟨"scale_pods", some pBad⟩).response =
      .invalid "Parameter validation failed" [serviceErr, replicasErr] :=
  (c7_all_validator_errors envW [] ⟨"scale_pods", some pBad⟩ pBad scalePodsDef
    rfl rfl rfl (by decide)).trans rfl

/-- C8: a required parameter counts as missing when absent, null, or the
empty string; when several are missing the failure reports the first missing
one in registry-declared order, and the domain validator is not consulted. -/
theorem c8_missing_param_first (env : Env) (log : List AuditRecord)
    (req : Request) (p : Params) (adef : ActionDef) (k : String)
    (hp : req.params = some p) (hreg : lookupAction req.action = some adef)
    (hfind : adef.required_params.find? (fun x => isMissing (getParam p x)) = some k) :
    (execute env log req).response =
      .missingParam ("Missing required parameter: " ++ k) ∧
    (execute env log req).log = log ∧
    (execute env log req).validateInvoked = false ∧
    (getParam p k = none ∨ getParam p k = some .vNull ∨
      getParam p k = some (.vStr "")) ∧
    ∃ pre post, adef.required_params = pre ++ k :: post ∧
      ∀ x ∈ pre, isMissing (getParam p x) = false := by
  have hact : req.action ≠ "" := action_ne_empty_of_lookup hreg
  obtain ⟨hk, pre, post, hsplit, hpre⟩ := find?_eq_some_split hfind
  refine ⟨?_, ?_, ?_, (isMissing_eq_true_iff _).mp hk, pre, post, hsplit, hpre⟩ <;>
    simp [execute, hact, hp, hreg, hfind]

/-- Parameters for `scale_pods` in which `service` is null and `replicas`
is absent: both required parameters are missing. -/
def pMiss : Params := [("service", .vNull)]

/-- C8 (witness): with `service` null and `replicas` absent, the first
missing parameter in declared order, `service`, is the one reported. -/
theorem c8_missing_param_first_witness :
    (execute envW [] ⟨"scale_pods", some pMiss⟩).response =
      .missingParam ("Missing required parameter: " ++ "service") ∧
    (execute envW [] ⟨"scale_pods", some pMiss⟩).log = [] ∧
    (execute envW [] ⟨"scale_pods", some pMiss⟩).validateInvoked = false ∧
    (getParam pMiss "service" = none ∨ getParam pMiss "service" = some .vNull ∨
      getParam pMiss "service" = some (.vStr "")) ∧
    ∃ pre post, scalePodsDef.required_params = pre ++ "service" :: post ∧
      ∀ x ∈ pre, isMissing (getParam pMiss x) = false :=
  c8_missing_param_first envW [] ⟨"scale_pods", some pMiss⟩ pMiss scalePodsDef
    "service" rfl rfl rfl

/-- C9: when the audit log's insertion order is monotonic in time, GetHistory
with no status filter returns the records newest first (the reverse of
insertion order, up to the effective limit); and an Execute call made after
every existing record keeps insertion order monotonic in time. -/
theorem c9_history_newest_first (log : List AuditRecord) (limitQ : Option Int)
    (env : Env) (req : Request)
    (hmono : log.Pairwise (fun a b => a.timestamp < b.timestamp)) :
    (getHistory log none limitQ).data = log.reverse.take (effectiveLimit limitQ) ∧
    ((∀ rcd ∈ log, rcd.timestamp < env.now) →
      (execute env log req).log.Pairwise (fun a b => a.timestamp < b.timestamp)) := by
  constructor
  · simp [getHistory, sortDesc_of_increasing log hmono]
  · intro hnew
    rcases execute_log_shape env log req with h | ⟨entry, happ, hts, _⟩
    · rw [h]
      exact hmono
    · rw [happ, List.pairwise_append]
      refine ⟨hmono, List.pairwise_singleton _ _, ?_⟩
      intro a ha b hb
      rw [List.mem_singleton] at hb
      subst hb
      rw [hts]
      exact hnew a ha

/-- A two-record audit log with increasing timestamps, for witnesses. -/
def logW : List AuditRecord :=
  [⟨"w1", 1, "alpha", [], .err "x", "rejected", 0⟩,
   ⟨"w2", 2, "beta", [], .err "y", "success", 0⟩]

/-- C9 (witness): the theorem applied to a concrete two-record log and a
subsequent Execute call at a later wall-clock time. -/
theorem c9_history_newest_first_witness :
    (getHistory logW none none).data = logW.reverse.take (effectiveLimit none) ∧
    (execute envW logW ⟨"drop_database", some []⟩).log.Pairwise
      (fun a b => a.timestamp < b.timestamp) := by
  have h := c9_history_newest_first logW none envW ⟨"drop_database", some []⟩ (by decide)
  exact ⟨h.1, h.2 (by decide)⟩

/-- C10: every AuditRecord the executor writes has status `success` or
`rejected`; the status `error` is never written. In this model every
registered action's `simulate` is a total function, mirroring that the
source's simulate functions return normally for all validated parameters,
so no effect-fault audit branch exists. -/
theorem c10_no_error_status (env : Env) (log : List AuditRecord) (req : Request) :
    ∀ rcd ∈ (execute env log req).log, rcd ∉ log →
      rcd.status ≠ "error" ∧ (rcd.status = "success" ∨ rcd.status = "rejected") := by
  intro rcd hmem hnot
  rcases execute_log_shape env log req with h | ⟨entry, happ, _, hstat⟩
  · rw [h] at hmem
    exact absurd hmem hnot
  · rw [happ] at hmem
    rcases List.mem_append.mp hmem with h1 | h1
    · exact absurd h1 hnot
    · rw [List.mem_singleton] at h1
      subst h1
      rcases hstat with h | h
      · exact ⟨by rw [h]; decide, Or.inr h⟩
      · exact ⟨by rw [h]; decide, Or.inl h⟩

/-- C10 (witness): the record written by a successful `scale_pods` execution
has status `success`, not `error`. -/
theorem c10_no_error_status_witness :
    (successP4 envW).status ≠ "error" ∧
    ((successP4 envW).status = "success" ∨ (successP4 envW).status = "rejected") :=
  c10_no_error_status envW [] ⟨"scale_pods", some p4⟩ (successP4 envW)
    (by decide) (by decide)
